import Mathlib

/-!
Verification of the TheoryGen piano keyboard engine.

This file embeds, as Lean definitions, the self-contained logic of the
repository: the pitch-class resolver (`noteToOffset`), the keyboard layout
generator (the `keys` useMemo of the `PianoToken` component), the highlight
precedence logic, the audio voice manager (`playNoteStart` / `playNoteStop`),
the octave-shift controls, and the preset save/delete handlers.  Times from
the Web Audio API (`ctx.currentTime`, ramp end times, `setTimeout` delays)
are modelled as exact integer milliseconds and gain levels as exact integer
thousandths of unit gain, so every constant of the source (0.05 s, 0.2 s,
1.5 s, 0.3, 0.001) is represented exactly.
-/

namespace TheoryGen

/-! ## Pitch-class resolver (src: NOTE_TO_OFFSET / noteToOffset) -/

/-- The fixed enharmonic table `NOTE_TO_OFFSET` from the source, as an
association list in the source's key order. -/
def NOTE_TO_OFFSET : List (String × Int) :=
  [("C", 0), ("B#", 0),
   ("C#", 1), ("DB", 1),
   ("D", 2),
   ("D#", 3), ("EB", 3),
   ("E", 4), ("FB", 4),
   ("F", 5), ("E#", 5),
   ("F#", 6), ("GB", 6),
   ("G", 7),
   ("G#", 8), ("AB", 8),
   ("A", 9),
   ("A#", 10), ("BB", 10),
   ("B", 11), ("CB", 11)]

/-- Normalization `note.toUpperCase().replace(/[0-9]/g, '')`: uppercase every character and
drop the digits. -/
def normalizeNote (note : String) : String :=
  String.mk ((note.data.map Char.toUpper).filter (fun c => !c.isDigit))

/-- Resolver `noteToOffset`: table lookup on the normalized spelling; `-1` when the
spelling is not a key of the table (the `?? -1` fallback). -/
def noteToOffset (note : String) : Int :=
  match NOTE_TO_OFFSET.lookup (normalizeNote note) with
  | some v => v
  | none => -1

/-! ## Active set and root index (src: activeIndices / rootIndex useMemos) -/

/-- JS `Set.add` on a `Set<number>` kept as an insertion-ordered
duplicate-free list: appends the element when absent. -/
def setAdd (s : List Int) (x : Int) : List Int :=
  if s.contains x then s else s ++ [x]

/-- Body of the `activeNotes.forEach` callback: resolve the name and add the
offset to the set only when it is not `-1`. -/
def activeStep (s : List Int) (n : String) : List Int :=
  let offset := noteToOffset n
  if offset != -1 then setAdd s offset else s

/-- The `activeIndices` useMemo: fold the callback over `activeNotes`
starting from the empty set. -/
def activeIndicesOf (activeNotes : List String) : List Int :=
  activeNotes.foldl activeStep []

/-- The `rootIndex` useMemo: `rootNote ? noteToOffset(rootNote) : -1`. -/
def rootIndexOf (rootNote : Option String) : Int :=
  match rootNote with
  | some r => noteToOffset r
  | none => -1

/-! ## Keyboard layout generator (src: PianoToken `keys` useMemo) -/

def whiteKeyWidth : Int := 40
def whiteKeyHeight : Int := 160
def blackKeyWidth : Int := 24
def blackKeyHeight : Int := 100

/-- Constant `START_OCTAVE = 3`. -/
def START_OCTAVE : Int := 3

/-- Constant `DEFAULT_OCTAVES = 2`. -/
def DEFAULT_OCTAVES : Nat := 2

/-- Constant `MAX_OCTAVES = 4`. -/
def MAX_OCTAVES : Nat := 4

inductive KeyKind
  | white
  | black
deriving DecidableEq, Repr

/-- One `<rect>` key as emitted by the generator: identity, geometry and
fill colour. -/
structure KeyRect where
  kind : KeyKind
  pitchClass : Int
  octaveIndex : Nat
  midiNote : Int
  x : Int
  y : Int
  width : Int
  height : Int
  fill : String
deriving DecidableEq, Repr

/-- One element pushed onto `generatedKeys`: a key rectangle or a `C`-label
text element. -/
inductive PianoElem
  | key (r : KeyRect)
  | label (x : Int) (y : Int) (text : String)
deriving DecidableEq, Repr

/-- White-key fill selection for `PianoToken` (pressed, then root, then
externally active, else white). -/
def whiteFill (isPressed isRoot isExternalActive : Bool) : String :=
  if isPressed then "#22d3ee"
  else if isRoot then "#8b5cf6"
  else if isExternalActive then "#60a5fa"
  else "white"

/-- Black-key fill selection for `PianoToken` (pressed, then root, then
externally active, else dark slate). -/
def blackFill (isPressed isRoot isExternalActive : Bool) : String :=
  if isPressed then "#22d3ee"
  else if isRoot then "#8b5cf6"
  else if isExternalActive then "#60a5fa"
  else "#1e293b"

/-- Constant `whiteNotes = [0, 2, 4, 5, 7, 9, 11]`. -/
def whiteNotes : List Int := [0, 2, 4, 5, 7, 9, 11]

/-- Constant `blackNotes = [(1,1),(3,2),(6,4),(8,5),(10,6)]` of (idx, pos) pairs. -/
def blackNotes : List (Int × Int) := [(1, 1), (3, 2), (6, 4), (8, 5), (10, 6)]

/-- One iteration of the outer `for (let oct = 0; oct < octaves; oct++)`
loop: the 7 white keys (each followed by a label when its pitch class is 0),
then the 5 black keys. -/
def octaveBlock (octaveShift : Int) (activeIndices : List Int)
    (rootIndex : Int) (playingNotes : List Int) (oct : Nat) : List PianoElem :=
  let xOffset : Int := (oct : Int) * (whiteKeyWidth * 7)
  let currentOctaveNumber : Int := START_OCTAVE + (oct : Int) + octaveShift
  let whites : List PianoElem := whiteNotes.enum.flatMap (fun p =>
    let i : Int := (p.1 : Int)
    let noteIndex : Int := p.2
    let midiNote : Int := (currentOctaveNumber + 1) * 12 + noteIndex
    let keyElem : PianoElem := PianoElem.key
      { kind := KeyKind.white
        pitchClass := noteIndex
        octaveIndex := oct
        midiNote := midiNote
        x := xOffset + i * whiteKeyWidth
        y := 0
        width := whiteKeyWidth
        height := whiteKeyHeight
        fill := whiteFill (playingNotes.contains midiNote)
          (rootIndex == noteIndex) (activeIndices.contains noteIndex) }
    if noteIndex == 0 then
      [keyElem,
       PianoElem.label (xOffset + i * whiteKeyWidth + whiteKeyWidth / 2)
         (whiteKeyHeight - 10)
         ("C" ++ toString currentOctaveNumber)]
    else [keyElem])
  let blacks : List PianoElem := blackNotes.map (fun p =>
    let idx : Int := p.1
    let pos : Int := p.2
    let midiNote : Int := (currentOctaveNumber + 1) * 12 + idx
    let xPos : Int := xOffset + pos * whiteKeyWidth - blackKeyWidth / 2
    PianoElem.key
      { kind := KeyKind.black
        pitchClass := idx
        octaveIndex := oct
        midiNote := midiNote
        x := xPos
        y := 0
        width := blackKeyWidth
        height := blackKeyHeight
        fill := blackFill (playingNotes.contains midiNote)
          (rootIndex == idx) (activeIndices.contains idx) })
  whites ++ blacks

/-- The full `keys` useMemo: all octave blocks in order. -/
def generateKeys (octaves : Nat) (octaveShift : Int) (activeIndices : List Int)
    (rootIndex : Int) (playingNotes : List Int) : List PianoElem :=
  (List.range octaves).flatMap
    (octaveBlock octaveShift activeIndices rootIndex playingNotes)

/-- Derived `totalWidth = 7 * whiteKeyWidth * octaves`. -/
def totalWidth (octaves : Nat) : Int := 7 * whiteKeyWidth * (octaves : Int)

/-- The key rectangles of an element list, in order. -/
def keyRects (elems : List PianoElem) : List KeyRect :=
  elems.filterMap (fun e =>
    match e with
    | PianoElem.key r => some r
    | PianoElem.label _ _ _ => none)

/-- The white keys of an element list belonging to render-local octave `o`. -/
def whiteKeysAt (elems : List PianoElem) (o : Nat) : List KeyRect :=
  (keyRects elems).filter (fun r => r.kind == KeyKind.white && r.octaveIndex == o)

/-- The black keys of an element list belonging to render-local octave `o`. -/
def blackKeysAt (elems : List PianoElem) (o : Nat) : List KeyRect :=
  (keyRects elems).filter (fun r => r.kind == KeyKind.black && r.octaveIndex == o)

/-! ## Audio voice manager (src: initAudio / playNoteStart / playNoteStop) -/

/-- The four `OscillatorType` values offered by the waveform selector. -/
inductive Waveform
  | triangle
  | sine
  | square
  | sawtooth
deriving DecidableEq, Repr

/-- A gain-parameter automation call, recorded in schedule order.  Times are
milliseconds on the audio context clock and gain values are thousandths of
unit gain, so the source's 0.05 s / 0.2 s / 1.5 s and 0.3 / 0.001 are the
exact integers 50 / 200 / 1500 and 300 / 1. -/
inductive GainEvent
  | setValueAtTime (value : Int) (time : Int)
  | linearRampToValueAtTime (value : Int) (time : Int)
  | exponentialRampToValueAtTime (value : Int) (time : Int)
  | cancelScheduledValues (time : Int)
deriving DecidableEq, Repr

/-- An oscillator node.  The audible frequency is determined by `freqMidi`
through `440 * 2 ^ ((freqMidi - 69) / 12)`; only the MIDI number is kept
since the claims never compare frequencies. -/
structure OscNode where
  waveform : Waveform
  freqMidi : Int
  startTime : Int
  stopTime : Option Int
deriving DecidableEq, Repr

/-- A gain node: the current `gain.value` reading plus the list of automation
calls issued so far. -/
structure GainNode where
  value : Int
  schedule : List GainEvent
deriving DecidableEq, Repr

/-- JS `Map.has`. -/
def mapHas (m : List (Int × α)) (k : Int) : Bool :=
  m.any (fun kv => kv.1 == k)

/-- JS `Map.get` (`none` when absent). -/
def mapGet (m : List (Int × α)) (k : Int) : Option α :=
  (m.find? (fun kv => kv.1 == k)).map Prod.snd

/-- JS `Map.set`: overwrite in place when the key is present (keys are never
duplicated), append at the end otherwise. -/
def mapSet : List (Int × α) → Int → α → List (Int × α)
  | [], k, v => [(k, v)]
  | kv :: t, k, v => if kv.1 == k then (k, v) :: t else kv :: mapSet t k v

/-- JS `Map.delete`. -/
def mapDelete (m : List (Int × α)) (k : Int) : List (Int × α) :=
  m.filter (fun kv => kv.1 != k)

/-- The component state the audio callbacks read and write: the audio
context (modelled by availability and creation flags and its clock), the two
voice maps, the `playingNotes` pressed set, the pending `setTimeout` cleanup
callbacks as (fire time in seconds, MIDI note) pairs, and the `waveform` and
`sustain` settings. -/
structure AudioState where
  audioSupported : Bool
  ctx : Bool
  currentTime : Int
  oscillators : List (Int × OscNode)
  gainNodes : List (Int × GainNode)
  playingNotes : List Int
  pendingCleanups : List (Int × Int)
  waveform : Waveform
  sustain : Bool
deriving DecidableEq, Repr

/-- Callback `initAudio`: create the context on first use when the platform supports
it (resume-from-suspended has no observable effect in this model). -/
def initAudio (s : AudioState) : AudioState :=
  if s.ctx then s else { s with ctx := s.audioSupported }

/-- Callback `playNoteStart`: init the context, bail out without one, no-op when a
voice already exists for `midiNote`, otherwise create the oscillator and
gain (attack ramp 0 → 0.3 over 0.05 s), register both, and add the note to
`playingNotes`. -/
def playNoteStart (s0 : AudioState) (midiNote : Int) : AudioState :=
  let s := initAudio s0
  if !s.ctx then s
  else if mapHas s.oscillators midiNote then s
  else
    let now := s.currentTime
    let osc : OscNode :=
      { waveform := s.waveform, freqMidi := midiNote, startTime := now, stopTime := none }
    let gain : GainNode :=
      { value := 0
        schedule := [GainEvent.setValueAtTime 0 now,
                     GainEvent.linearRampToValueAtTime 300 (now + 50)] }
    { s with
      oscillators := mapSet s.oscillators midiNote osc
      gainNodes := mapSet s.gainNodes midiNote gain
      playingNotes := setAdd s.playingNotes midiNote }

/-- Callback `playNoteStop`: when the context and both nodes exist, cancel scheduled
gain automation, snapshot the current gain value, ramp exponentially to the
0.001 floor (integer 1) over `releaseTime` (1500 ms with sustain, 200 ms
without), stop the oscillator at the ramp end, and schedule map cleanup
`releaseTime + 50` milliseconds later (the source's `releaseTime*1000 + 50`
with `releaseTime` in seconds); in every case remove the note from
`playingNotes`. -/
def playNoteStop (s : AudioState) (midiNote : Int) : AudioState :=
  let releaseTime : Int := if s.sustain then 1500 else 200
  let s1 :=
    match s.ctx, mapGet s.oscillators midiNote, mapGet s.gainNodes midiNote with
    | true, some osc, some gain =>
      let now := s.currentTime
      let gain1 : GainNode :=
        { gain with
          schedule := gain.schedule ++
            [GainEvent.cancelScheduledValues now,
             GainEvent.setValueAtTime gain.value now,
             GainEvent.exponentialRampToValueAtTime 1 (now + releaseTime)] }
      let osc1 : OscNode := { osc with stopTime := some (now + releaseTime) }
      { s with
        oscillators := mapSet s.oscillators midiNote osc1
        gainNodes := mapSet s.gainNodes midiNote gain1
        pendingCleanups := s.pendingCleanups ++
          [(now + (releaseTime + 50), midiNote)] }
    | _, _, _ => s
  { s1 with playingNotes := s1.playingNotes.filter (fun x => x != midiNote) }

/-- Body of one cleanup `setTimeout` callback: delete the note from both
voice maps. -/
def fireCleanup (s : AudioState) (midiNote : Int) : AudioState :=
  { s with
    oscillators := mapDelete s.oscillators midiNote
    gainNodes := mapDelete s.gainNodes midiNote }

/-- Advance the clock to `t`, firing every pending cleanup whose time has
come, in scheduling order. -/
def advanceTo (s : AudioState) (t : Int) : AudioState :=
  let due := s.pendingCleanups.filter (fun e => decide (e.1 ≤ t))
  let rest := s.pendingCleanups.filter (fun e => !(decide (e.1 ≤ t)))
  due.foldl (fun acc e => fireCleanup acc e.2)
    { s with currentTime := t, pendingCleanups := rest }

/-- The component's initial audio-related state. -/
def initialAudioState (supported : Bool) (w : Waveform) (sus : Bool) : AudioState :=
  { audioSupported := supported
    ctx := false
    currentTime := 0
    oscillators := []
    gainNodes := []
    playingNotes := []
    pendingCleanups := []
    waveform := w
    sustain := sus }

/-! ## Octave shifter (src: PianoToken octave shifter buttons) -/

/-- A click on one of the two octave-shift buttons. -/
inductive ShiftOp
  | dec
  | inc
deriving DecidableEq, Repr

/-- Effect of a button click on `octaveShift`.  Each button is disabled at
its bound (`disabled={octaveShift <= -2}` resp. `>= 2`), so the handler only
fires inside the guard; the handlers are `Math.max(s - 1, -2)` and
`Math.max(s + 1, 2)` as written in the source. -/
def applyShiftOp (s : Int) (op : ShiftOp) : Int :=
  match op with
  | ShiftOp.dec => if -2 < s then max (s - 1) (-2) else s
  | ShiftOp.inc => if s < 2 then max (s + 1) 2 else s

/-- The `octaveShift` value after a sequence of button clicks from the
initial value 0. -/
def runShiftOps (ops : List ShiftOp) : Int :=
  ops.foldl applyShiftOp 0

/-! ## Presets (src: App.tsx handleSavePreset / handleDeletePreset) -/

/-- The `MusicTheoryResponse` fields the preset handlers touch (`root` and
`type` build the preset name; the rest ride along opaquely). -/
structure MusicTheoryResponse where
  root : String
  type : String
  category : String
  notes : List String
  intervals : List String
  description : String
deriving DecidableEq, Repr

/-- A saved preset. -/
structure Preset where
  id : String
  name : String
  data : MusicTheoryResponse
  timestamp : Nat
deriving DecidableEq, Repr

/-- The preset list plus the `theorygen_presets` local-storage slot, holding
the serialized list (modelled by the list itself; `JSON.stringify` of the
full list is written on every mutation). -/
structure PresetState where
  presets : List Preset
  storage : Option (List Preset)
deriving DecidableEq, Repr

/-- Handler `handleSavePreset`: no-op without a current result; otherwise build the
new preset (id and timestamp from `Date.now()`), prepend it, and rewrite
storage with the full updated list. -/
def handleSavePreset (st : PresetState) (data : Option MusicTheoryResponse)
    (now : Nat) : PresetState :=
  match data with
  | none => st
  | some d =>
    let newPreset : Preset :=
      { id := toString now
        name := d.root ++ " " ++ d.type
        data := d
        timestamp := now }
    let updatedPresets := newPreset :: st.presets
    { presets := updatedPresets, storage := some updatedPresets }

/-- Handler `handleDeletePreset`: keep every preset whose id differs, and rewrite
storage with the full updated list. -/
def handleDeletePreset (st : PresetState) (id : String) : PresetState :=
  let updatedPresets := st.presets.filter (fun p => p.id != id)
  { presets := updatedPresets, storage := some updatedPresets }

/-! ## Helper lemmas -/

theorem map_flatMap_eq {α β γ : Type} (g : α → β) (f : γ → List α) (l : List γ) :
    (l.flatMap f).map g = l.flatMap (fun a => (f a).map g) := by
  induction l with
  | nil => rfl
  | cons a t ih => simp [List.flatMap_cons, ih]

theorem filterMap_flatMap_eq {α β γ : Type} (g : α → Option β) (f : γ → List α)
    (l : List γ) :
    (l.flatMap f).filterMap g = l.flatMap (fun a => (f a).filterMap g) := by
  induction l with
  | nil => rfl
  | cons a t ih => simp [List.flatMap_cons, ih]

theorem filter_flatMap_eq {α γ : Type} (p : α → Bool) (f : γ → List α) (l : List γ) :
    (l.flatMap f).filter p = l.flatMap (fun a => (f a).filter p) := by
  induction l with
  | nil => rfl
  | cons a t ih => simp [List.flatMap_cons, ih]

theorem flatMap_if_single {α : Type} (n o : Nat) (ho : o < n) (L : List α) :
    ((List.range n).flatMap fun j => if j = o then L else []) = L := by
  induction n with
  | zero => omega
  | succ k ih =>
    rw [List.range_succ, List.flatMap_append]
    by_cases h : o = k
    · subst h
      have h1 : ((List.range o).flatMap fun j => if j = o then L else []) = [] := by
        apply List.flatMap_eq_nil_iff.mpr
        intro j hj
        simp only [List.mem_range] at hj
        simp [Nat.ne_of_lt hj]
      simp [h1]
    · have h2 : o < k := by omega
      have h3 : k ≠ o := fun hh => h hh.symm
      rw [ih h2]
      simp [h3]

theorem mapGet_mapSet_self {α : Type} (l : List (Int × α)) (k : Int) (v : α) :
    mapGet (mapSet l k v) k = some v := by
  induction l with
  | nil => simp [mapSet, mapGet]
  | cons kv t ih =>
    by_cases h : kv.1 = k
    · simp [mapSet, mapGet, h]
    · simp [mapSet, mapGet, h] at ih ⊢
      exact ih

theorem lookup_mem_of_eq_some {l : List (String × Int)} {k : String} {v : Int}
    (h : l.lookup k = some v) : (k, v) ∈ l := by
  induction l with
  | nil => simp [List.lookup] at h
  | cons kv t ih =>
    cases kv with
    | mk k' v' =>
      simp only [List.lookup] at h
      split at h
      · injection h with hv
        have hk : k = k' := by
          rename_i heq
          simpa using heq
        subst hk
        subst hv
        exact List.mem_cons_self _ _
      · exact List.mem_cons_of_mem _ (ih h)

theorem setAdd_mem {s : List Int} {x y : Int} (h : x ∈ setAdd s y) :
    x ∈ s ∨ x = y := by
  simp only [setAdd] at h
  split at h
  · exact Or.inl h
  · rcases List.mem_append.mp h with h1 | h1
    · exact Or.inl h1
    · exact Or.inr (by simpa using h1)

/-! ## Claim theorems -/

/-- C2: enharmonic spellings resolve to the same pitch class in [0,11]: B#
maps to 0 (= C), E# to 5 (= F), Fb to 4 (= E), Cb to 11 (= B), and every
sharp spelling equals its flat counterpart; every table value lies in
[0,11]. -/
theorem claim2_enharmonic_resolver :
    noteToOffset "B#" = noteToOffset "C" ∧ noteToOffset "B#" = 0 ∧
    noteToOffset "E#" = noteToOffset "F" ∧ noteToOffset "E#" = 5 ∧
    noteToOffset "Fb" = noteToOffset "E" ∧ noteToOffset "Fb" = 4 ∧
    noteToOffset "Cb" = noteToOffset "B" ∧ noteToOffset "Cb" = 11 ∧
    noteToOffset "C#" = noteToOffset "Db" ∧
    noteToOffset "D#" = noteToOffset "Eb" ∧
    noteToOffset "F#" = noteToOffset "Gb" ∧
    noteToOffset "G#" = noteToOffset "Ab" ∧
    noteToOffset "A#" = noteToOffset "Bb" ∧
    (∀ q ∈ NOTE_TO_OFFSET, 0 ≤ q.2 ∧ q.2 ≤ 11) := by
  decide

/-- Clicking either octave-shift button while its guard permits keeps the
value inside [-2, 2]. -/
theorem applyShiftOp_bounds (s : Int) (op : ShiftOp)
    (h1 : -2 ≤ s) (h2 : s ≤ 2) :
    -2 ≤ applyShiftOp s op ∧ applyShiftOp s op ≤ 2 := by
  cases op <;> simp only [applyShiftOp] <;> split_ifs <;> constructor <;> omega

/-- C8: starting from octaveShift = 0, every sequence of guarded
increment/decrement clicks leaves octaveShift within [-2, +2]. -/
theorem claim8_octave_shift_bounded (ops : List ShiftOp) :
    -2 ≤ runShiftOps ops ∧ runShiftOps ops ≤ 2 := by
  have key : ∀ (l : List ShiftOp) (s : Int), -2 ≤ s → s ≤ 2 →
      -2 ≤ l.foldl applyShiftOp s ∧ l.foldl applyShiftOp s ≤ 2 := by
    intro l
    induction l with
    | nil => intro s h1 h2; exact ⟨h1, h2⟩
    | cons op t ih =>
      intro s h1 h2
      have hb := applyShiftOp_bounds s op h1 h2
      exact ih _ hb.1 hb.2
  exact key ops 0 (by norm_num) (by norm_num)

/-- C9: deleting an absent preset id leaves the list unchanged; saving
prepends the new preset (most-recent-first); both operations rewrite
storage with the full updated list. -/
theorem claim9_presets :
    (∀ (st : PresetState) (id : String), id ∉ st.presets.map Preset.id →
       (handleDeletePreset st id).presets = st.presets) ∧
    (∀ (st : PresetState) (d : MusicTheoryResponse) (now : Nat),
       (handleSavePreset st (some d) now).presets =
         { id := toString now, name := d.root ++ " " ++ d.type,
           data := d, timestamp := now } :: st.presets) ∧
    (∀ (st : PresetState) (id : String),
       (handleDeletePreset st id).storage = some (handleDeletePreset st id).presets) ∧
    (∀ (st : PresetState) (d : MusicTheoryResponse) (now : Nat),
       (handleSavePreset st (some d) now).storage =
         some (handleSavePreset st (some d) now).presets) := by
  refine ⟨?_, ?_, ?_, ?_⟩
  · intro st id h
    simp only [handleDeletePreset]
    apply List.filter_eq_self.mpr
    intro p hp
    have : p.id ≠ id := by
      intro hcontra
      exact h (hcontra ▸ List.mem_map_of_mem Preset.id hp)
    simpa using this
  · intro st d now
    rfl
  · intro st id
    rfl
  · intro st d now
    rfl

/-- Witness for C9 at a concrete one-element preset list. -/
theorem claim9_presets_witness :
    (handleDeletePreset
      ⟨[{ id := "7", name := "C Major", timestamp := 7,
          data := { root := "C", type := "Major", category := "scale",
                    notes := ["C"], intervals := ["1"], description := "d" } }], none⟩
      "other").presets =
      [{ id := "7", name := "C Major", timestamp := 7,
         data := { root := "C", type := "Major", category := "scale",
                   notes := ["C"], intervals := ["1"], description := "d" } }] :=
  claim9_presets.1 _ "other" (by decide)

/-- Every value stored in the enharmonic table lies in [0, 11]. -/
theorem NOTE_TO_OFFSET_values : ∀ q ∈ NOTE_TO_OFFSET, 0 ≤ q.2 ∧ q.2 ≤ 11 := by
  decide

/-- The resolver either returns the sentinel `-1` or a pitch class in
[0, 11]. -/
theorem noteToOffset_range (note : String) :
    noteToOffset note = -1 ∨ (0 ≤ noteToOffset note ∧ noteToOffset note ≤ 11) := by
  unfold noteToOffset
  cases h : NOTE_TO_OFFSET.lookup (normalizeNote note) with
  | none => exact Or.inl rfl
  | some v => exact Or.inr (NOTE_TO_OFFSET_values _ (lookup_mem_of_eq_some h))

/-- Elements of the active-set fold come from the accumulator or from a note
of the list that resolved to a non-sentinel offset. -/
theorem foldl_activeStep_mem (notes : List String) :
    ∀ (acc : List Int) (x : Int), x ∈ notes.foldl activeStep acc →
      x ∈ acc ∨ ∃ n ∈ notes, noteToOffset n = x ∧ x ≠ -1 := by
  induction notes with
  | nil => intro acc x h; exact Or.inl h
  | cons n t ih =>
    intro acc x h
    rw [List.foldl_cons] at h
    rcases ih (activeStep acc n) x h with h1 | ⟨n', hn', hx, hne⟩
    · simp only [activeStep] at h1
      split at h1
      · rcases setAdd_mem h1 with h2 | h2
        · exact Or.inl h2
        · rename_i hcond
          have hne : noteToOffset n ≠ -1 := by simpa using hcond
          exact Or.inr ⟨n, List.mem_cons_self _ _, h2.symm, h2 ▸ hne⟩
      · exact Or.inl h1
    · exact Or.inr ⟨n', List.mem_cons_of_mem _ hn', hx, hne⟩

/-- C4: the resolver never fails (it returns the sentinel `-1` or a pitch
class in [0, 11]), and the active set built from arbitrary strings contains
only pitch classes of recognized notes of the input list. -/
theorem claim4_unrecognized_silently_excluded (note : String)
    (notes : List String) (x : Int) (hx : x ∈ activeIndicesOf notes) :
    (noteToOffset note = -1 ∨ (0 ≤ noteToOffset note ∧ noteToOffset note ≤ 11)) ∧
    (0 ≤ x ∧ x ≤ 11) ∧ (∃ n ∈ notes, noteToOffset n = x) := by
  refine ⟨noteToOffset_range note, ?_, ?_⟩
  · rcases foldl_activeStep_mem notes [] x hx with h | ⟨n, hn, hnx, hne⟩
    · simp at h
    · rcases noteToOffset_range n with h1 | h1
      · exact absurd (h1 ▸ hnx) (fun hh => hne hh.symm)
      · exact hnx ▸ h1
  · rcases foldl_activeStep_mem notes [] x hx with h | ⟨n, hn, hnx, _⟩
    · simp at h
    · exact ⟨n, hn, hnx⟩

/-- Witness for C4: the list ["C", "qq7"] yields the active pitch class 0,
coming from the recognized note "C". -/
theorem claim4_witness :
    (0 : Int) ≤ 0 ∧ (0 : Int) ≤ 11 ∧ ∃ n ∈ ["C", "qq7"], noteToOffset n = 0 := by
  have h := claim4_unrecognized_silently_excluded "qq7" ["C", "qq7"] 0 (by decide)
  exact ⟨h.2.1.1, h.2.1.2, h.2.2⟩

/-- Lemma: `mapHas` agrees with `mapGet` being defined. -/
theorem mapHas_eq_isSome {α : Type} (l : List (Int × α)) (k : Int) :
    mapHas l k = (mapGet l k).isSome := by
  induction l with
  | nil => rfl
  | cons kv t ih =>
    by_cases h : kv.1 = k
    · simp [mapHas, mapGet, h]
    · have hb : (kv.1 == k) = false := by simpa using h
      simp [mapHas, mapGet, hb] at ih ⊢
      exact ih

/-- Lemma: `mapSet` leaves the key present. -/
theorem mapHas_mapSet_self {α : Type} (l : List (Int × α)) (k : Int) (v : α) :
    mapHas (mapSet l k v) k = true := by
  rw [mapHas_eq_isSome, mapGet_mapSet_self]
  rfl

/-- C6: `playNoteStart` on a note whose voice map entry still exists — in
particular one in its release phase — is a no-op; pressing 60 twice yields
exactly one oscillator and one gain entry for 60. -/
theorem claim6_pressStart_noop (s : AudioState) (m : Int)
    (hctx : s.ctx = true) (hvoice : mapHas s.oscillators m = true) :
    playNoteStart s m = s ∧
    (playNoteStart (playNoteStart (initialAudioState true Waveform.sine false) 60) 60 =
       playNoteStart (initialAudioState true Waveform.sine false) 60) ∧
    ((playNoteStart (playNoteStart (initialAudioState true Waveform.sine false) 60) 60).oscillators.countP
        (fun kv => kv.1 == 60) = 1) ∧
    ((playNoteStart (playNoteStart (initialAudioState true Waveform.sine false) 60) 60).gainNodes.countP
        (fun kv => kv.1 == 60) = 1) ∧
    (playNoteStart (playNoteStop (playNoteStart (initialAudioState true Waveform.sine false) 60) 60) 60 =
       playNoteStop (playNoteStart (initialAudioState true Waveform.sine false) 60) 60) := by
  refine ⟨?_, by decide, by decide, by decide, by decide⟩
  simp [playNoteStart, initAudio, hctx, hvoice]

/-- Witness for C6: the second press of 60 is the identity on the state
produced by the first press. -/
theorem claim6_witness :
    playNoteStart (playNoteStart (initialAudioState true Waveform.sine false) 60) 60 =
      playNoteStart (initialAudioState true Waveform.sine false) 60 :=
  (claim6_pressStart_noop (playNoteStart (initialAudioState true Waveform.sine false) 60) 60
    (by decide) (by decide)).1

/-- C10: `playNoteStop` removes the note from the pressed set immediately
and unconditionally — voice or no voice — while a live voice's map record
survives the call (it is only deleted later by the scheduled cleanup). -/
theorem claim10_pressed_set_cleared_immediately (s : AudioState) (m : Int)
    (osc : OscNode) (gain : GainNode) (hctx : s.ctx = true)
    (ho : mapGet s.oscillators m = some osc)
    (hg : mapGet s.gainNodes m = some gain) :
    (∀ (s2 : AudioState) (m2 : Int),
       (playNoteStop s2 m2).playingNotes = s2.playingNotes.filter (fun x => x != m2) ∧
       m2 ∉ (playNoteStop s2 m2).playingNotes) ∧
    mapHas (playNoteStop s m).oscillators m = true := by
  constructor
  · intro s2 m2
    constructor
    · simp only [playNoteStop]
      split <;> rfl
    · simp only [playNoteStop]
      split <;> simp [List.mem_filter]
  · simp only [playNoteStop, hctx, ho, hg]
    exact mapHas_mapSet_self _ _ _

/-- Witness for C10 at the state where 60 was just pressed. -/
theorem claim10_witness :
    mapHas (playNoteStop (playNoteStart (initialAudioState true Waveform.sine false) 60) 60).oscillators 60 = true :=
  (claim10_pressed_set_cleared_immediately
    (playNoteStart (initialAudioState true Waveform.sine false) 60) 60
    { waveform := Waveform.sine, freqMidi := 60, startTime := 0, stopTime := none }
    { value := 0, schedule := [GainEvent.setValueAtTime 0 0,
        GainEvent.linearRampToValueAtTime 300 50] }
    (by decide) (by decide) (by decide)).2

/-- C7: with a live voice, `playNoteStop` cancels scheduled automation,
snapshots the current gain, ramps exponentially to the positive floor
(0.001, i.e. integer 1 > 0) over 200 ms (1500 ms with sustain), stops the
oscillator at the ramp end, and schedules record deletion strictly after the
ramp end; without a voice it touches none of the audio structures; and in
the concrete press/release run the record for 60 is gone once the cleanup
fires, after which a further `playNoteStop` is a complete no-op. -/
theorem claim7_pressEnd_release (s : AudioState) (m : Int)
    (osc : OscNode) (gain : GainNode) (hctx : s.ctx = true)
    (ho : mapGet s.oscillators m = some osc)
    (hg : mapGet s.gainNodes m = some gain) :
    (mapGet (playNoteStop s m).gainNodes m = some
       { gain with schedule := gain.schedule ++
           [GainEvent.cancelScheduledValues s.currentTime,
            GainEvent.setValueAtTime gain.value s.currentTime,
            GainEvent.exponentialRampToValueAtTime 1
              (s.currentTime + (if s.sustain then 1500 else 200))] }) ∧
    (0 : Int) < 1 ∧
    (mapGet (playNoteStop s m).oscillators m = some
       { osc with stopTime := some (s.currentTime + (if s.sustain then 1500 else 200)) }) ∧
    ((playNoteStop s m).pendingCleanups = s.pendingCleanups ++
       [(s.currentTime + ((if s.sustain then 1500 else 200) + 50), m)]) ∧
    (s.currentTime + (if s.sustain then 1500 else 200) <
       s.currentTime + ((if s.sustain then (1500 : Int) else 200) + 50)) ∧
    (∀ (s2 : AudioState) (m2 : Int), mapGet s2.oscillators m2 = none →
       (playNoteStop s2 m2).oscillators = s2.oscillators ∧
       (playNoteStop s2 m2).gainNodes = s2.gainNodes ∧
       (playNoteStop s2 m2).pendingCleanups = s2.pendingCleanups) ∧
    (mapGet (advanceTo (playNoteStop (playNoteStart
        (initialAudioState true Waveform.sine false) 60) 60) 250).oscillators 60 = none ∧
     playNoteStop (advanceTo (playNoteStop (playNoteStart
        (initialAudioState true Waveform.sine false) 60) 60) 250) 60 =
       advanceTo (playNoteStop (playNoteStart
        (initialAudioState true Waveform.sine false) 60) 60) 250) := by
  refine ⟨?_, by norm_num, ?_, ?_, ?_, ?_, by decide, by decide⟩
  · simp only [playNoteStop, hctx, ho, hg]
    exact mapGet_mapSet_self _ _ _
  · simp only [playNoteStop, hctx, ho, hg]
    exact mapGet_mapSet_self _ _ _
  · simp only [playNoteStop, hctx, ho, hg]
  · cases hs : s.sustain <;> simp [hs]
  · intro s2 m2 h2
    refine ⟨?_, ?_, ?_⟩ <;>
      (simp only [playNoteStop]
       split
       · simp_all
       · rfl)

/-- Witness for C7 at the state where 60 was just pressed. -/
theorem claim7_witness :
    (playNoteStop (playNoteStart (initialAudioState true Waveform.sine false) 60) 60).pendingCleanups =
      (playNoteStart (initialAudioState true Waveform.sine false) 60).pendingCleanups ++
        [((playNoteStart (initialAudioState true Waveform.sine false) 60).currentTime +
           ((if (playNoteStart (initialAudioState true Waveform.sine false) 60).sustain
             then 1500 else 200) + 50), 60)] :=
  (claim7_pressEnd_release (playNoteStart (initialAudioState true Waveform.sine false) 60) 60
    { waveform := Waveform.sine, freqMidi := 60, startTime := 0, stopTime := none }
    { value := 0, schedule := [GainEvent.setValueAtTime 0 0,
        GainEvent.linearRampToValueAtTime 300 50] }
    (by decide) (by decide) (by decide)).2.2.2.1

/-- The shift-independent content of one rendered element: everything except
the fill colour, the MIDI note and the label text. -/
inductive ElemGeometry
  | keyGeo (kind : KeyKind) (pitchClass : Int) (octaveIndex : Nat)
      (x y width height : Int)
  | labelGeo (x y : Int)
deriving DecidableEq, Repr

/-- Geometry projection of one element. -/
def elemGeometry : PianoElem → ElemGeometry
  | PianoElem.key r =>
      ElemGeometry.keyGeo r.kind r.pitchClass r.octaveIndex r.x r.y r.width r.height
  | PianoElem.label x y _ => ElemGeometry.labelGeo x y

/-- Like `elemGeometry` but keeping the fill colour; only the MIDI note and
the label text are dropped. -/
inductive ElemView
  | keyView (kind : KeyKind) (pitchClass : Int) (octaveIndex : Nat)
      (x y width height : Int) (fill : String)
  | labelView (x y : Int)
deriving DecidableEq, Repr

/-- Fill-preserving projection of one element. -/
def elemView : PianoElem → ElemView
  | PianoElem.key r =>
      ElemView.keyView r.kind r.pitchClass r.octaveIndex r.x r.y r.width r.height r.fill
  | PianoElem.label x y _ => ElemView.labelView x y

theorem flatMap_congr_fun {α β : Type} (l : List α) (f g : α → List β)
    (h : ∀ a, f a = g a) : l.flatMap f = l.flatMap g := by
  induction l with
  | nil => rfl
  | cons a t ih => simp [List.flatMap_cons, h a, ih]

/-- Per octave block, geometry does not depend on the octave shift. -/
theorem octaveBlock_geometry_shift (shift : Int) (a : List Int) (r : Int)
    (p : List Int) (oct : Nat) :
    (octaveBlock shift a r p oct).map elemGeometry =
      (octaveBlock 0 a r p oct).map elemGeometry := rfl

/-- Per octave block, with nothing pressed even the fills do not depend on
the octave shift. -/
theorem octaveBlock_view_shift (shift : Int) (a : List Int) (r : Int)
    (oct : Nat) :
    (octaveBlock shift a r [] oct).map elemView =
      (octaveBlock 0 a r [] oct).map elemView := rfl

/-- C5: the rendered geometry (kind, pitch class, octave index, position and
size of every key, and position of every label) is identical at every
octaveShift to the geometry at octaveShift 0; with no pressed keys even the
fill colours agree, so only MIDI numbers and label texts change. -/
theorem claim5_geometry_shift_invariant (octaves : Nat) (shift : Int)
    (a : List Int) (r : Int) (p : List Int) :
    ((generateKeys octaves shift a r p).map elemGeometry =
       (generateKeys octaves 0 a r p).map elemGeometry) ∧
    ((generateKeys octaves shift a r []).map elemView =
       (generateKeys octaves 0 a r []).map elemView) := by
  constructor
  · simp only [generateKeys]
    rw [map_flatMap_eq, map_flatMap_eq]
    exact flatMap_congr_fun _ _ _ (octaveBlock_geometry_shift shift a r p)
  · simp only [generateKeys]
    rw [map_flatMap_eq, map_flatMap_eq]
    exact flatMap_congr_fun _ _ _ (octaveBlock_view_shift shift a r)

/-- Every key rectangle of one octave block carries the fill computed by the
white/black fill chain from its own pressed/root/active predicates. -/
theorem octaveBlock_fill_law (shift : Int) (a : List Int) (r : Int)
    (p : List Int) (oct : Nat) (k : KeyRect)
    (hk : k ∈ keyRects (octaveBlock shift a r p oct)) :
    (k.kind = KeyKind.white →
       k.fill = whiteFill (p.contains k.midiNote) (r == k.pitchClass)
         (a.contains k.pitchClass)) ∧
    (k.kind = KeyKind.black →
       k.fill = blackFill (p.contains k.midiNote) (r == k.pitchClass)
         (a.contains k.pitchClass)) := by
  simp only [octaveBlock, keyRects, whiteNotes, blackNotes, List.enum] at hk
  simp at hk
  rcases hk with h|h|h|h|h|h|h|h|h|h|h|h <;> subst h <;>
    exact ⟨fun hh => by simp at hh; try simp, fun hh => by simp at hh; try simp⟩

/-- C3: every key's fill follows the fixed precedence pressed > root >
externallyActive > default (the fill chains return the pressed colour
whenever pressed holds, the root colour whenever root holds and pressed does
not, and so on), every rendered key's fill is computed by exactly that chain
from its own pressed/root/active predicates, and in the concrete scenario
(activeNotes C E G, root C, MIDI 52 pressed) the E key is drawn pressed even
though its pitch class is active. -/
theorem claim3_visual_precedence (octaves : Nat) (shift : Int) (a : List Int)
    (r : Int) (p : List Int) (k : KeyRect)
    (hk : k ∈ keyRects (generateKeys octaves shift a r p)) :
    (∀ ro ac : Bool, whiteFill true ro ac = "#22d3ee" ∧ blackFill true ro ac = "#22d3ee") ∧
    (∀ ac : Bool, whiteFill false true ac = "#8b5cf6" ∧ blackFill false true ac = "#8b5cf6") ∧
    (whiteFill false false true = "#60a5fa" ∧ blackFill false false true = "#60a5fa") ∧
    (whiteFill false false false = "white" ∧ blackFill false false false = "#1e293b") ∧
    ((k.kind = KeyKind.white →
        k.fill = whiteFill (p.contains k.midiNote) (r == k.pitchClass)
          (a.contains k.pitchClass)) ∧
     (k.kind = KeyKind.black →
        k.fill = blackFill (p.contains k.midiNote) (r == k.pitchClass)
          (a.contains k.pitchClass))) ∧
    ((activeIndicesOf ["C", "E", "G"]).contains 4 = true ∧
     (keyRects (generateKeys 2 0 (activeIndicesOf ["C", "E", "G"])
         (noteToOffset "C") [52])).filterMap
        (fun kr => if kr.midiNote == 52 then some kr.fill else none) = ["#22d3ee"]) := by
  refine ⟨by decide, by decide, by decide, by decide, ?_, by decide⟩
  have h1 : keyRects (generateKeys octaves shift a r p) =
      (List.range octaves).flatMap (fun oct => keyRects (octaveBlock shift a r p oct)) := by
    simp only [generateKeys, keyRects]
    rw [filterMap_flatMap_eq]
  rw [h1] at hk
  rcases List.mem_flatMap.mp hk with ⟨oct, _, hmem⟩
  exact octaveBlock_fill_law shift a r p oct k hmem

/-- Witness for C3 at the first white key of a one-octave render. -/
theorem claim3_witness :
    ({ kind := KeyKind.white, pitchClass := 0, octaveIndex := 0, midiNote := 48,
       x := 0, y := 0, width := 40, height := 160, fill := "white" } : KeyRect).fill =
      whiteFill (List.contains [] 48) ((-1 : Int) == 0) (List.contains [] 0) := by
  have h := (claim3_visual_precedence 1 0 [] (-1) []
    { kind := KeyKind.white, pitchClass := 0, octaveIndex := 0, midiNote := 48,
      x := 0, y := 0, width := 40, height := 160, fill := "white" }
    (by decide)).2.2.2.2.1.1
  exact h rfl

/-- Per octave block, the (pitchClass, x) projection of the white keys of
render octave `o`: the block contributes its seven keys when it is octave
`o` and nothing otherwise. -/
theorem octaveBlock_white_proj (shift : Int) (a : List Int) (r : Int)
    (p : List Int) (oct o : Nat) :
    (whiteKeysAt (octaveBlock shift a r p oct) o).map (fun k => (k.pitchClass, k.x)) =
      if oct = o then
        [((0 : Int), (o : Int) * 7 * whiteKeyWidth + 0 * whiteKeyWidth),
         (2, (o : Int) * 7 * whiteKeyWidth + 1 * whiteKeyWidth),
         (4, (o : Int) * 7 * whiteKeyWidth + 2 * whiteKeyWidth),
         (5, (o : Int) * 7 * whiteKeyWidth + 3 * whiteKeyWidth),
         (7, (o : Int) * 7 * whiteKeyWidth + 4 * whiteKeyWidth),
         (9, (o : Int) * 7 * whiteKeyWidth + 5 * whiteKeyWidth),
         (11, (o : Int) * 7 * whiteKeyWidth + 6 * whiteKeyWidth)]
      else [] := by
  by_cases h : oct = o
  · subst h
    simp [whiteKeysAt, keyRects, octaveBlock, whiteNotes, blackNotes, whiteKeyWidth,
      List.enum, List.enumFrom]
    ring
  · simp [whiteKeysAt, keyRects, octaveBlock, whiteNotes, blackNotes, h,
      List.enum, List.enumFrom]

/-- Per octave block, the (pitchClass, x) projection of the black keys of
render octave `o`. -/
theorem octaveBlock_black_proj (shift : Int) (a : List Int) (r : Int)
    (p : List Int) (oct o : Nat) :
    (blackKeysAt (octaveBlock shift a r p oct) o).map (fun k => (k.pitchClass, k.x)) =
      if oct = o then
        [((1 : Int), (o : Int) * 7 * whiteKeyWidth + 1 * whiteKeyWidth - blackKeyWidth / 2),
         (3, (o : Int) * 7 * whiteKeyWidth + 2 * whiteKeyWidth - blackKeyWidth / 2),
         (6, (o : Int) * 7 * whiteKeyWidth + 4 * whiteKeyWidth - blackKeyWidth / 2),
         (8, (o : Int) * 7 * whiteKeyWidth + 5 * whiteKeyWidth - blackKeyWidth / 2),
         (10, (o : Int) * 7 * whiteKeyWidth + 6 * whiteKeyWidth - blackKeyWidth / 2)]
      else [] := by
  by_cases h : oct = o
  · subst h
    simp [blackKeysAt, keyRects, octaveBlock, whiteNotes, blackNotes, whiteKeyWidth,
      blackKeyWidth, List.enum, List.enumFrom]
    ring
  · simp [blackKeysAt, keyRects, octaveBlock, whiteNotes, blackNotes, h,
      List.enum, List.enumFrom]

/-- Over the whole layout, octave `o < octaves` contributes exactly the seven
white keys of the claim. -/
theorem whiteKeysAt_generate (octaves : Nat) (shift : Int) (a : List Int)
    (r : Int) (p : List Int) (o : Nat) (ho : o < octaves) :
    (whiteKeysAt (generateKeys octaves shift a r p) o).map (fun k => (k.pitchClass, k.x)) =
      [((0 : Int), (o : Int) * 7 * whiteKeyWidth + 0 * whiteKeyWidth),
       (2, (o : Int) * 7 * whiteKeyWidth + 1 * whiteKeyWidth),
       (4, (o : Int) * 7 * whiteKeyWidth + 2 * whiteKeyWidth),
       (5, (o : Int) * 7 * whiteKeyWidth + 3 * whiteKeyWidth),
       (7, (o : Int) * 7 * whiteKeyWidth + 4 * whiteKeyWidth),
       (9, (o : Int) * 7 * whiteKeyWidth + 5 * whiteKeyWidth),
       (11, (o : Int) * 7 * whiteKeyWidth + 6 * whiteKeyWidth)] := by
  have h1 : (whiteKeysAt (generateKeys octaves shift a r p) o).map (fun k => (k.pitchClass, k.x)) =
      (List.range octaves).flatMap
        (fun oct => (whiteKeysAt (octaveBlock shift a r p oct) o).map (fun k => (k.pitchClass, k.x))) := by
    simp only [whiteKeysAt, generateKeys, keyRects]
    rw [filterMap_flatMap_eq, filter_flatMap_eq, map_flatMap_eq]
  rw [h1, flatMap_congr_fun _ _ _ (fun oct => octaveBlock_white_proj shift a r p oct o),
    flatMap_if_single octaves o ho]

/-- Over the whole layout, octave `o < octaves` contributes exactly the five
black keys of the claim. -/
theorem blackKeysAt_generate (octaves : Nat) (shift : Int) (a : List Int)
    (r : Int) (p : List Int) (o : Nat) (ho : o < octaves) :
    (blackKeysAt (generateKeys octaves shift a r p) o).map (fun k => (k.pitchClass, k.x)) =
      [((1 : Int), (o : Int) * 7 * whiteKeyWidth + 1 * whiteKeyWidth - blackKeyWidth / 2),
       (3, (o : Int) * 7 * whiteKeyWidth + 2 * whiteKeyWidth - blackKeyWidth / 2),
       (6, (o : Int) * 7 * whiteKeyWidth + 4 * whiteKeyWidth - blackKeyWidth / 2),
       (8, (o : Int) * 7 * whiteKeyWidth + 5 * whiteKeyWidth - blackKeyWidth / 2),
       (10, (o : Int) * 7 * whiteKeyWidth + 6 * whiteKeyWidth - blackKeyWidth / 2)] := by
  have h1 : (blackKeysAt (generateKeys octaves shift a r p) o).map (fun k => (k.pitchClass, k.x)) =
      (List.range octaves).flatMap
        (fun oct => (blackKeysAt (octaveBlock shift a r p oct) o).map (fun k => (k.pitchClass, k.x))) := by
    simp only [blackKeysAt, generateKeys, keyRects]
    rw [filterMap_flatMap_eq, filter_flatMap_eq, map_flatMap_eq]
  rw [h1, flatMap_congr_fun _ _ _ (fun oct => octaveBlock_black_proj shift a r p oct o),
    flatMap_if_single octaves o ho]

/-- C1: each render octave `o` contributes exactly 7 white keys with pitch
classes [0,2,4,5,7,9,11] at x = o*7*whiteKeyWidth + i*whiteKeyWidth and
exactly 5 black keys with (pitchClass, gap) pairs (1,1),(3,2),(6,4),(8,5),
(10,6) at x = o*7*whiteKeyWidth + gap*whiteKeyWidth - blackKeyWidth/2; for
two octaves the layout has 14 white and 10 black keys, total width
14*whiteKeyWidth, and the first octave's slot-0 white key (pitch class 0)
carries the label C3 when the base octave is 3 and the shift is 0. -/
theorem claim1_keyboard_layout (octaves : Nat) (shift : Int) (a : List Int)
    (r : Int) (p : List Int) (o : Nat) (ho : o < octaves) :
    ((whiteKeysAt (generateKeys octaves shift a r p) o).map (fun k => (k.pitchClass, k.x)) =
       [((0 : Int), (o : Int) * 7 * whiteKeyWidth + 0 * whiteKeyWidth),
        (2, (o : Int) * 7 * whiteKeyWidth + 1 * whiteKeyWidth),
        (4, (o : Int) * 7 * whiteKeyWidth + 2 * whiteKeyWidth),
        (5, (o : Int) * 7 * whiteKeyWidth + 3 * whiteKeyWidth),
        (7, (o : Int) * 7 * whiteKeyWidth + 4 * whiteKeyWidth),
        (9, (o : Int) * 7 * whiteKeyWidth + 5 * whiteKeyWidth),
        (11, (o : Int) * 7 * whiteKeyWidth + 6 * whiteKeyWidth)]) ∧
    ((blackKeysAt (generateKeys octaves shift a r p) o).map (fun k => (k.pitchClass, k.x)) =
       [((1 : Int), (o : Int) * 7 * whiteKeyWidth + 1 * whiteKeyWidth - blackKeyWidth / 2),
        (3, (o : Int) * 7 * whiteKeyWidth + 2 * whiteKeyWidth - blackKeyWidth / 2),
        (6, (o : Int) * 7 * whiteKeyWidth + 4 * whiteKeyWidth - blackKeyWidth / 2),
        (8, (o : Int) * 7 * whiteKeyWidth + 5 * whiteKeyWidth - blackKeyWidth / 2),
        (10, (o : Int) * 7 * whiteKeyWidth + 6 * whiteKeyWidth - blackKeyWidth / 2)]) ∧
    (whiteKeysAt (generateKeys octaves shift a r p) o).length = 7 ∧
    (blackKeysAt (generateKeys octaves shift a r p) o).length = 5 ∧
    ((keyRects (generateKeys 2 0 a r p)).countP (fun k => k.kind == KeyKind.white) = 14) ∧
    ((keyRects (generateKeys 2 0 a r p)).countP (fun k => k.kind == KeyKind.black) = 10) ∧
    totalWidth 2 = 14 * whiteKeyWidth ∧
    PianoElem.label 20 150 "C3" ∈ generateKeys 2 0 a r p := by
  have hw := whiteKeysAt_generate octaves shift a r p o ho
  have hb := blackKeysAt_generate octaves shift a r p o ho
  refine ⟨hw, hb, ?_, ?_, ?_, ?_, by decide, ?_⟩
  · have h := congrArg List.length hw
    simpa using h
  · have h := congrArg List.length hb
    simpa using h
  · simp [generateKeys, octaveBlock, keyRects, whiteNotes, blackNotes, List.enum,
      List.enumFrom, List.range_succ, List.countP_cons]
  · simp [generateKeys, octaveBlock, keyRects, whiteNotes, blackNotes, List.enum,
      List.enumFrom, List.range_succ, List.countP_cons]
  · simp [generateKeys, octaveBlock, whiteNotes, blackNotes, List.enum,
      List.enumFrom, List.range_succ]
    left
    refine ⟨by decide, by decide, by decide⟩

/-- Witness for C1: the first octave of the default two-octave render with
nothing highlighted. -/
theorem claim1_witness :
    (whiteKeysAt (generateKeys 2 0 [] (-1) []) 0).map (fun k => (k.pitchClass, k.x)) =
      [(0, 0), (2, 40), (4, 80), (5, 120), (7, 160), (9, 200), (11, 240)] := by
  have h := (claim1_keyboard_layout 2 0 [] (-1) [] 0 (by norm_num)).1
  simpa [whiteKeyWidth] using h

end TheoryGen
